import Mathlib

/-! The `knock` HTTP handler of caddy-knock (`main.go`).

A shallow embedding of `Knock.loadPermission`, `Knock.Provision` and
`Knock.ServeHTTP`, together with the library calls they make:

* `net.SplitHostPort` (Go standard library),
* the struct decoding rules of `encoding/json` for the one-field struct `SvcRes`,
* `http.Header.Add`,
* the `Get` path of `github.com/ReneKroon/ttlcache/v2` (`getItem`, `touch`,
  `expired`, `SetWithTTL`, `invokeLoader`, `GetByLoaderWithTtl`) with the
  options that `NewCache()` leaves at their defaults.

Collaborators whose behaviour is not fixed by the program (the remote service,
the text-level JSON grammar, the clock, the next handler) are parameters.
Go strings are modelled as Lean strings; byte indices are character indices,
which agree for the ASCII delimiters inspected here.
-/

namespace CaddyKnock

/-! ## Go values -/

/-- Values of Go type `error` that reach the handler. -/
inductive GoError where
  /-- Result of `errors.New(msg)`. -/
  | errorsNew (msg : String)
  /-- Value `&net.AddrError{Err: why, Addr: addr}`. -/
  | addrError (why addr : String)
  /-- Value `*json.UnmarshalTypeError`: JSON value kind and the Go target description. -/
  | unmarshalType (value target : String)
  /-- Value `ttlcache.ErrClosed`. -/
  | errClosed
  /-- Value `ttlcache.ErrNotFound`. -/
  | errNotFound
  /-- An error produced by a collaborator (transport, body read, JSON syntax, next handler). -/
  | foreign (msg : String)
  deriving DecidableEq, Repr

/-- The `Error()` method. -/
def GoError.Error : GoError → String
  | .errorsNew msg => msg
  | .addrError why addr => if addr = "" then why else "address " ++ addr ++ ": " ++ why
  | .unmarshalType value target => "json: cannot unmarshal " ++ value ++ " into Go " ++ target
  | .errClosed => "cache already closed"
  | .errNotFound => "key not found"
  | .foreign msg => msg

deriving instance DecidableEq for Except

/-- Values of Go type `interface{}` that the loader can produce: `nil` or a `bool`. -/
inductive GoValue where
  | nil
  | bool (b : Bool)
  deriving DecidableEq, Repr

/-- A `time.Duration`, in nanoseconds. -/
abbrev Duration := Int

/-- A reading of the clock (`time.Now()`), in nanoseconds. -/
abbrev Time := Int

/-- Constant `time.Second`. -/
def Second : Duration := 1000000000

/-- Constant `time.Hour`. -/
def Hour : Duration := 3600 * Second

/-! ## `encoding/json`: decoding into `SvcRes` -/

/-- A parsed JSON value. Numbers keep their literal text. -/
inductive JSON where
  | null
  | bool (b : Bool)
  | number (lit : String)
  | string (s : String)
  | array (xs : List JSON)
  | object (fields : List (String × JSON))

/-- The name `encoding/json` uses for the kind of a JSON value in type errors. -/
def JSON.kind : JSON → String
  | .null => "null"
  | .bool _ => "bool"
  | .number _ => "number"
  | .string _ => "string"
  | .array _ => "array"
  | .object _ => "object"

/-- The local type `SvcRes` of `loadPermission`: `struct { Ok bool (json:"ok") }`. -/
structure SvcRes where
  Ok : Bool
  deriving DecidableEq, Repr

/-- Whether an object key selects the field tagged `ok`: `encoding/json` prefers an exact
match and also accepts a match under Unicode simple case folding, whose orbit of `k`
contains the Kelvin sign U+212A. -/
def foldsToOk (key : String) : Bool :=
  match key.data with
  | [a, b] => (a = 'o' || a = 'O') && (b = 'k' || b = 'K' || b = Char.ofNat 0x212A)
  | _ => false

/-- One key/value pair of an object decoded into `SvcRes`: a boolean sets the field, `null`
leaves it, any other value records a type error (the first one is kept) and decoding goes on. -/
def decodeField (acc : SvcRes × Option GoError) (kv : String × JSON) : SvcRes × Option GoError :=
  if foldsToOk kv.1 then
    match kv.2 with
    | .bool b => (⟨b⟩, acc.2)
    | .null => acc
    | v =>
      match acc.2 with
      | some e => (acc.1, some e)
      | none => (acc.1, some (.unmarshalType v.kind "struct field SvcRes.ok of type bool"))
  else acc

/-- Decoding of a parsed JSON value into a `SvcRes` that currently holds `init`. -/
def decodeSvcRes (v : JSON) (init : SvcRes) : Except GoError SvcRes :=
  match v with
  | .null => .ok init
  | .object fields =>
    match fields.foldl decodeField (init, none) with
    | (res, none) => .ok res
    | (_, some e) => .error e
  | v => .error (.unmarshalType v.kind "value of type knock.SvcRes")

/-! ## Collaborators -/

/-- The local type `SvcQuery` of `loadPermission`. -/
structure SvcQuery where
  Svcname : String
  Svcsecret : String
  Userip : String
  deriving DecidableEq, Repr

/-- An `*http.Response` as `loadPermission` uses it: the status code and what
`io.ReadAll(res.Body)` returns. -/
structure HttpResponse where
  StatusCode : Int
  Body : Except GoError String

/-- The world outside the handler at the moment of a call. -/
structure Env where
  /-- Call `json.Marshal(&q)`. -/
  jsonMarshal : SvcQuery → Except GoError String
  /-- Call `k.httpClient.Post(url, contentType, body)`. -/
  Post : String → String → String → Except GoError HttpResponse
  /-- The syntax pass of `json.Unmarshal`: a syntax error, or the value the text denotes. -/
  jsonSyntax : String → Except GoError JSON

/-- Call `json.Unmarshal(data, &svcRes)` where `svcRes` holds `init`. -/
def jsonUnmarshal (env : Env) (data : String) (init : SvcRes) : Except GoError SvcRes :=
  match env.jsonSyntax data with
  | .error e => .error e
  | .ok v => decodeSvcRes v init

/-- An environment in which every `Post` is answered by `res` and JSON text denotes `v`; the
marshalled query is a stand-in text naming the service and the key. -/
def Env.fixed (res : HttpResponse) (v : Except GoError JSON) : Env where
  jsonMarshal := fun q => .ok (q.Svcname ++ "/" ++ q.Userip)
  Post := fun _ _ _ => .ok res
  jsonSyntax := fun _ => v

/-! ## `Knock.loadPermission` -/

/-- The exported fields of `Knock`. -/
structure Config where
  Server : String
  Svcname : String
  Svcsecret : String
  deriving DecidableEq, Repr

/-- The three results `(data, ttl, err)` of a loader function. -/
structure LoadRet where
  data : GoValue
  ttl : Duration
  err : Option GoError
  deriving DecidableEq, Repr

/-- Method `(k *Knock) loadPermission(key)`. -/
def loadPermission (k : Config) (env : Env) (key : String) : LoadRet :=
  let q : SvcQuery := { Svcname := k.Svcname, Svcsecret := k.Svcsecret, Userip := key }
  match env.jsonMarshal q with
  | .error e => ⟨.nil, 0, some e⟩
  | .ok binQ =>
    match env.Post (k.Server ++ "/query") "application/json" binQ with
    | .error e => ⟨.nil, 0, some e⟩
    | .ok res =>
      match res.Body with
      | .error e => ⟨.nil, 0, some e⟩
      | .ok resData =>
        if res.StatusCode ≠ 200 then
          ⟨.nil, 0, some (.errorsNew resData)⟩
        else
          match jsonUnmarshal env resData ⟨false⟩ with
          | .error e => ⟨.nil, 0, some e⟩
          | .ok svcRes =>
            if svcRes.Ok then ⟨.bool true, 1 * Hour, none⟩
            else ⟨.bool false, 10 * Second, none⟩

/-! ## `net.SplitHostPort` -/

/-- Function `bytealg.IndexByteString`: index of the first `c`, if any. -/
def indexByte : List Char → Char → Option Nat
  | [], _ => none
  | x :: xs, c => if x = c then some 0 else (indexByte xs c).map (· + 1)

/-- Function `bytealg.LastIndexByteString`: index of the last `c`, if any. -/
def lastIndexByte : List Char → Char → Option Nat
  | [], _ => none
  | x :: xs, c =>
    match lastIndexByte xs c with
    | some i => some (i + 1)
    | none => if x = c then some 0 else none

/-- Constant `missingPort` of `SplitHostPort`. -/
def missingPort : String := "missing port in address"

/-- Constant `tooManyColons` of `SplitHostPort`. -/
def tooManyColons : String := "too many colons in address"

/-- A character between single quotes, as in the messages of `SplitHostPort`. -/
def quoted (c : Char) : String := String.mk [Char.ofNat 39, c, Char.ofNat 39]

/-- Function `net.SplitHostPort(hostport)`: `(host, port)` or an `*AddrError`. -/
def SplitHostPort (hostport : String) : Except GoError (String × String) :=
  let s := hostport.data
  let addrErr := fun (why : String) => (Except.error (GoError.addrError why hostport) :
    Except GoError (String × String))
  -- the checks after the host has been cut out; `j`, `k` bound the bracket scan
  let finish := fun (host : List Char) (i j k : Nat) =>
    if (indexByte (s.drop j) '[').isSome then
      addrErr ("unexpected " ++ quoted '[' ++ " in address")
    else if (indexByte (s.drop k) ']').isSome then
      addrErr ("unexpected " ++ quoted ']' ++ " in address")
    else
      Except.ok (String.mk host, String.mk (s.drop (i + 1)))
  -- the port starts after the last colon
  match lastIndexByte s ':' with
  | none => addrErr missingPort
  | some i =>
    if s.head? = some '[' then
      -- `close` is the variable `end`: the first closing bracket, expected just before the last colon
      match indexByte s ']' with
      | none => addrErr ("missing " ++ quoted ']' ++ " in address")
      | some close =>
        if close + 1 = s.length then addrErr missingPort
        else if close + 1 = i then finish ((s.drop 1).take (close - 1)) i 1 (close + 1)
        else if s.get? (close + 1) = some ':' then addrErr tooManyColons
        else addrErr missingPort
    else
      let host := s.take i
      if (indexByte host ':').isSome then addrErr tooManyColons
      else finish host i 0 0

/-- The characters `SplitHostPort` looks for. -/
def isDelimiter (c : Char) : Bool := c = ':' || c = '[' || c = ']'

/-! ## `net/http`: headers and the response writer -/

/-- Function `validHeaderFieldByte`: the token characters of RFC 7230. -/
def validHeaderFieldByte (c : Char) : Bool :=
  c.isAlphanum || [33, 35, 36, 37, 38, 39, 42, 43, 45, 46, 94, 95, 96, 124, 126].contains c.toNat

/-- The rewriting loop of `canonicalMIMEHeaderKey`: upper case at the start and after each
dash, lower case elsewhere. -/
def canonicalLoop : Bool → List Char → List Char
  | _, [] => []
  | upper, c :: cs =>
    let c1 := if upper && c.isLower then c.toUpper
              else if !upper && c.isUpper then c.toLower else c
    c1 :: canonicalLoop (c1 = '-') cs

/-- Function `textproto.CanonicalMIMEHeaderKey`: keys with a character that is no token
character are returned unchanged. -/
def CanonicalMIMEHeaderKey (s : String) : String :=
  if s.data.all validHeaderFieldByte then String.mk (canonicalLoop true s.data) else s

/-- An `http.Header`: canonical key to the values added under it, in order. -/
abbrev Header := List (String × List String)

/-- Map read `h[key]`, the nil slice when the key is absent. -/
def Header.values : Header → String → List String
  | [], _ => []
  | (k, vs) :: rest, key => if k = key then vs else Header.values rest key

/-- Map write `h[key] = vs`. -/
def Header.setValues : Header → String → List String → Header
  | [], key, vs => [(key, vs)]
  | (k, old) :: rest, key, vs =>
    if k = key then (key, vs) :: rest else (k, old) :: Header.setValues rest key vs

/-- Method `http.Header.Add(key, value)`. -/
def Header.Add (h : Header) (key value : String) : Header :=
  let key := CanonicalMIMEHeaderKey key
  h.setValues key (h.values key ++ [value])

/-- Method `http.Header.Get(key)`: the first value under the canonical key, or `""`. -/
def Header.Get (h : Header) (key : String) : String :=
  (h.values (CanonicalMIMEHeaderKey key)).headD ""

/-- A call received by an `http.ResponseWriter`. -/
inductive WriterCall where
  | WriteHeader (statusCode : Int)
  | Write (data : String)
  deriving DecidableEq, Repr

/-- An `http.ResponseWriter`: the header map that `Header()` returns and the calls to
`WriteHeader` and `Write` received so far. -/
structure ResponseWriter where
  header : Header
  calls : List WriterCall
  deriving DecidableEq, Repr

/-- The part of an `*http.Request` that identifies it here. -/
structure Request where
  RemoteAddr : String
  Method : String
  RequestURI : String
  deriving DecidableEq, Repr

/-- A `caddyhttp.Handler`: what its `ServeHTTP(w, r)` does to the writer and returns. -/
abbrev Handler := ResponseWriter → Request → ResponseWriter × Option GoError

/-! ## `ttlcache/v2`: the `Get` path

One clock reading is taken per cache operation: `now` for the lookup of `Get`, `now'` for the
store that follows a successful load. The metrics, the callbacks, the size limit (0 after
`NewCache()`) and the priority queue of the expiration goroutine do not influence what `Get`
returns and are left out; so is the interleaving of concurrent callers. -/

/-- The type `item` of the cache. -/
structure Item where
  key : String
  data : GoValue
  ttl : Duration
  expireAt : Time
  deriving DecidableEq, Repr

/-- Method `item.touch()`, the clock reading `now`. -/
def Item.touch (it : Item) (now : Time) : Item :=
  if it.ttl > 0 then { it with expireAt := now + it.ttl } else it

/-- Method `item.expired()`, the clock reading `now`: `expireAt.Before(now)` for a positive
ttl, never otherwise. -/
def Item.expired (it : Item) (now : Time) : Bool :=
  if it.ttl ≤ 0 then false else decide (it.expireAt < now)

/-- Function `newItem(key, data, ttl)`, the clock reading `now`. -/
def newItem (key : String) (data : GoValue) (ttl : Duration) (now : Time) : Item :=
  Item.touch { key := key, data := data, ttl := ttl, expireAt := 0 } now

/-- The type `LoaderFunction`; the Go function reads the outside world when it is called. -/
abbrev LoaderFunction := Env → String → LoadRet

/-- The map `cache.items`. -/
abbrev Items := List (String × Item)

/-- Map read `items[key]`. -/
def Items.find : Items → String → Option Item
  | [], _ => none
  | (k, it) :: rest, key => if k = key then some it else Items.find rest key

/-- Map write `items[key] = it`. -/
def Items.set : Items → String → Item → Items
  | [], key, it => [(key, it)]
  | (k, old) :: rest, key, it =>
    if k = key then (key, it) :: rest else (k, old) :: Items.set rest key it

/-- The type `Cache`. -/
structure Cache where
  ttl : Duration
  items : Items
  skipTTLExtension : Bool
  isShutDown : Bool
  loaderFunction : Option LoaderFunction

/-- Function `NewCache()`. -/
def NewCache : Cache :=
  { ttl := 0, items := [], skipTTLExtension := false, isShutDown := false,
    loaderFunction := none }

/-- Method `cache.SetLoaderFunction(loader)`. -/
def Cache.SetLoaderFunction (cache : Cache) (loader : LoaderFunction) : Cache :=
  { cache with loaderFunction := some loader }

/-- Method `cache.SkipTTLExtensionOnHit(value)`. -/
def Cache.SkipTTLExtensionOnHit (cache : Cache) (value : Bool) : Cache :=
  { cache with skipTTLExtension := value }

/-- Method `cache.getItem(key)`: a missing or expired item is reported as absent; a live one is
touched unless the extension is switched off or the item never expires. -/
def Cache.getItem (cache : Cache) (now : Time) (key : String) : Cache × Option Item :=
  match cache.items.find key with
  | none => (cache, none)
  | some item =>
    if item.expired now then (cache, none)
    else if cache.skipTTLExtension || (item.ttl == 0 && cache.ttl == 0) then (cache, some item)
    else
      let item : Item := if item.ttl == 0 then { item with ttl := cache.ttl } else item
      let item : Item := item.touch now
      ({ cache with items := cache.items.set key item }, some item)

/-- Method `cache.SetWithTTL(key, data, ttl)`. -/
def Cache.SetWithTTL (cache : Cache) (now : Time) (key : String) (data : GoValue)
    (ttl : Duration) : Cache × Option GoError :=
  if cache.isShutDown then (cache, some .errClosed)
  else
    let (cache, found) := cache.getItem now key
    let item : Item := match found with
      | some item => { item with data := data, ttl := ttl }
      | none => newItem key data ttl now
    let item : Item := if item.ttl == 0 then { item with ttl := cache.ttl } else item
    let item : Item := item.touch now
    ({ cache with items := cache.items.set key item }, none)

/-- The results of a lookup, with the cache afterwards and the keys handed to the loader. -/
structure GetRet where
  cache : Cache
  data : GoValue
  ttl : Duration
  err : Option GoError
  loaderCalls : List String

/-- Method `cache.invokeLoader(key, loaderFunction)`: a successful load is stored. -/
def Cache.invokeLoader (cache : Cache) (env : Env) (now' : Time) (key : String)
    (loaderFunction : LoaderFunction) : GetRet :=
  let r := loaderFunction env key
  match r.err with
  | some e => ⟨cache, r.data, r.ttl, some e, [key]⟩
  | none =>
    match cache.SetWithTTL now' key r.data r.ttl with
    | (cache, some e) => ⟨cache, .nil, r.ttl, some e, [key]⟩
    | (cache, none) => ⟨cache, r.data, r.ttl, none, [key]⟩

/-- Method `cache.GetByLoaderWithTtl(key, customLoaderFunction)`. -/
def Cache.GetByLoaderWithTtl (cache : Cache) (env : Env) (now now' : Time) (key : String)
    (customLoaderFunction : Option LoaderFunction) : GetRet :=
  if cache.isShutDown then ⟨cache, .nil, 0, some .errClosed, []⟩
  else
    match cache.getItem now key with
    | (cache, some item) =>
      let ttlToReturn := if !cache.skipTTLExtension then item.ttl else item.expireAt - now
      ⟨cache, item.data, if ttlToReturn < 0 then 0 else ttlToReturn, none, []⟩
    | (cache, none) =>
      let loaderFunction := match customLoaderFunction with
        | some f => some f
        | none => cache.loaderFunction
      match loaderFunction with
      | none => ⟨cache, .nil, 0, some .errNotFound, []⟩
      | some f => cache.invokeLoader env now' key f

/-- Method `cache.Get(key)`, that is `GetByLoader(key, nil)`. -/
def Cache.Get (cache : Cache) (env : Env) (now now' : Time) (key : String) : GetRet :=
  cache.GetByLoaderWithTtl env now now' key none

/-- Whether the map holds an item for `key` that has not expired at `now`. -/
def Cache.live (cache : Cache) (now : Time) (key : String) : Bool :=
  match cache.items.find key with
  | some item => !item.expired now
  | none => false

/-- Every item of the cache holds a `bool`, as the type assertion of `ServeHTTP` expects. -/
def Cache.holdsVerdicts (cache : Cache) : Prop :=
  ∀ key it, cache.items.find key = some it → ∃ b, it.data = .bool b

/-! ## `Knock.Provision` and `Knock.ServeHTTP` -/

/-- The type `Knock` once provisioned. -/
structure Knock extends Config where
  permissionCache : Cache

/-- Method `(k *Knock) Provision(ctx)`. -/
def Provision (k : Config) : Knock :=
  { k with permissionCache := NewCache.SetLoaderFunction (loadPermission k) }

/-- What a call of `ServeHTTP` leaves behind: the cache, the writer, the keys looked up in the
cache, the keys handed to the loader, the calls made to the next handler, and how the call
ended. -/
structure Outcome where
  cache : Cache
  w : ResponseWriter
  lookups : List String
  loaderCalls : List String
  nextCalls : List (ResponseWriter × Request)
  /-- The returned error, `none` for `nil`. -/
  err : Option GoError
  /-- Whether the type assertion `perm.(bool)` panicked. -/
  panicked : Bool

/-- Method `(k *Knock) ServeHTTP(w, r, next)`. -/
def ServeHTTP (k : Knock) (env : Env) (now now' : Time) (w : ResponseWriter) (r : Request)
    (next : Handler) : Outcome :=
  match SplitHostPort r.RemoteAddr with
  | .error err => ⟨k.permissionCache, w, [], [], [], some err, false⟩
  | .ok (host, _) =>
    let g := k.permissionCache.Get env now now' host
    match g.err with
    | some err => ⟨g.cache, w, [host], g.loaderCalls, [], some err, false⟩
    | none =>
      match g.data with
      | .nil => ⟨g.cache, w, [host], g.loaderCalls, [], none, true⟩
      | .bool perm =>
        if !perm then
          let w : ResponseWriter := { w with header := w.header.Add "location" (k.Server ++ "/") }
          let w : ResponseWriter := { w with calls := w.calls ++ [WriterCall.WriteHeader 302] }
          let w : ResponseWriter := { w with calls := w.calls ++ [WriterCall.Write "knock required"] }
          ⟨g.cache, w, [host], g.loaderCalls, [], none, false⟩
        else
          let (w', err) := next w r
          ⟨g.cache, w', [host], g.loaderCalls, [(w, r)], err, false⟩

/-! ## Sample data -/

/-- A configuration as a Caddyfile would give it. -/
def sampleConfig : Config :=
  { Server := "https://knock.example", Svcname := "svc", Svcsecret := "secret" }

/-- The remote service answers with status `status`, body `body`, whose JSON reading is `v`. -/
def remoteAnswers (status : Int) (body : String) (v : Except GoError JSON) : Env :=
  Env.fixed { StatusCode := status, Body := .ok body } v

/-- The remote service answers `{"ok": true}`. -/
def remoteGrants : Env :=
  remoteAnswers 200 "\x7b\"ok\":true\x7d" (.ok (.object [("ok", .bool true)]))

/-- The remote service answers `{"ok": false}`. -/
def remoteDenies : Env :=
  remoteAnswers 200 "\x7b\"ok\":false\x7d" (.ok (.object [("ok", .bool false)]))

/-- A request from `203.0.113.5`, port 54321. -/
def sampleRequest : Request :=
  { RemoteAddr := "203.0.113.5:54321", Method := "GET", RequestURI := "/" }

/-- A writer nothing has been written to. -/
def freshWriter : ResponseWriter := { header := [], calls := [] }

/-- A next handler that answers 200 with the request URI as body. -/
def echoHandler : Handler := fun w r =>
  ({ w with calls := w.calls ++ [.WriteHeader 200, .Write r.RequestURI] }, none)

/-! ## The loader -/

/-- The two successful results of the loader. -/
theorem loadPermission_success (k : Config) (env : Env) (key : String)
    (h : (loadPermission k env key).err = none) :
    loadPermission k env key = ⟨.bool true, 1 * Hour, none⟩ ∨
      loadPermission k env key = ⟨.bool false, 10 * Second, none⟩ := by
  revert h
  unfold loadPermission
  dsimp only
  cases env.jsonMarshal ⟨k.Svcname, k.Svcsecret, key⟩ with
  | error e => simp
  | ok binQ =>
    dsimp only
    cases env.Post (k.Server ++ "/query") "application/json" binQ with
    | error e => simp
    | ok res =>
      dsimp only
      cases res.Body with
      | error e => simp
      | ok resData =>
        dsimp only
        by_cases hs : res.StatusCode = 200
        · simp only [hs, ne_eq, not_true_eq_false, if_false]
          cases jsonUnmarshal env resData ⟨false⟩ with
          | error e => simp
          | ok svcRes => cases svcRes.Ok <;> simp
        · simp [hs]

/-- The ttl of a successful load is positive. -/
theorem loadPermission_ttl_pos (k : Config) (env : Env) (key : String)
    (h : (loadPermission k env key).err = none) : 0 < (loadPermission k env key).ttl := by
  rcases loadPermission_success k env key h with h1 | h1 <;> rw [h1] <;> decide

/-- The keys that select the field tagged `ok`: the four spellings in ASCII letters and the
two with the Kelvin sign. -/
theorem foldsToOk_iff (key : String) :
    foldsToOk key = true ↔
      key.data = ['o', 'k'] ∨ key.data = ['o', 'K'] ∨ key.data = ['O', 'k'] ∨
        key.data = ['O', 'K'] ∨ key.data = ['o', Char.ofNat 0x212A] ∨
        key.data = ['O', Char.ofNat 0x212A] := by
  obtain ⟨cs⟩ := key
  unfold foldsToOk
  match cs with
  | [] => simp
  | [_] => simp
  | _ :: _ :: _ :: _ => simp
  | [a, b] =>
    simp only [Bool.and_eq_true, Bool.or_eq_true, decide_eq_true_eq, List.cons.injEq, and_true]
    constructor
    · rintro ⟨ha | ha, (hb | hb) | hb⟩ <;> subst ha <;> subst hb <;> simp
    · rintro (⟨ha, hb⟩ | ⟨ha, hb⟩ | ⟨ha, hb⟩ | ⟨ha, hb⟩ | ⟨ha, hb⟩ | ⟨ha, hb⟩) <;>
        subst ha <;> subst hb <;> simp

/-- Fields before the deciding one: while every matching field holds a boolean or `null`, no
type error is recorded. -/
theorem foldl_decodeField_no_error (fields : List (String × JSON)) (acc : SvcRes)
    (h : ∀ kv ∈ fields, foldsToOk kv.1 = true → kv.2 = .null ∨ ∃ b, kv.2 = .bool b) :
    ∃ res, fields.foldl decodeField (acc, none) = (res, none) := by
  induction fields generalizing acc with
  | nil => exact ⟨acc, rfl⟩
  | cons kv rest ih =>
    have hrest : ∀ kv ∈ rest, foldsToOk kv.1 = true → kv.2 = .null ∨ ∃ b, kv.2 = .bool b :=
      fun kv hkv => h kv (List.mem_cons_of_mem _ hkv)
    have hstep : ∃ res, decodeField (acc, none) kv = (res, none) := by
      unfold decodeField
      by_cases hm : foldsToOk kv.1 = true
      · rcases h kv (List.mem_cons_self _ _) hm with hn | ⟨b, hb⟩
        · exact ⟨acc, by simp [hm, hn]⟩
        · exact ⟨⟨b⟩, by simp [hm, hb]⟩
      · exact ⟨acc, by simp [hm]⟩
    obtain ⟨res, hres⟩ := hstep
    rw [List.foldl_cons, hres]
    exact ih res hrest

/-- Fields after the deciding one: while every matching field holds `null`, nothing changes. -/
theorem foldl_decodeField_null (fields : List (String × JSON)) (acc : SvcRes × Option GoError)
    (h : ∀ kv ∈ fields, foldsToOk kv.1 = true → kv.2 = .null) :
    fields.foldl decodeField acc = acc := by
  induction fields generalizing acc with
  | nil => rfl
  | cons kv rest ih =>
    have hstep : decodeField acc kv = acc := by
      unfold decodeField
      by_cases hm : foldsToOk kv.1 = true
      · simp [hm, h kv (List.mem_cons_self _ _) hm]
      · simp [hm]
    rw [List.foldl_cons, hstep]
    exact ih acc (fun kv hkv => h kv (List.mem_cons_of_mem _ hkv))

/-- Counterexample to C1: the bodies `{"ok": true, "OK": false}` and `{"ok": true, "ok": 1}`
are JSON objects with the boolean field `ok` set to `true`; for the first the loader returns
the verdict Denied with the ttl of ten seconds, for the second it returns an error. -/
theorem later_field_overrides_ok :
    (("ok", JSON.bool true) ∈ [("ok", JSON.bool true), ("OK", JSON.bool false)] ∧
      loadPermission sampleConfig
        (remoteAnswers 200 "\x7b\"ok\":true,\"OK\":false\x7d"
          (.ok (.object [("ok", .bool true), ("OK", .bool false)])))
        "203.0.113.5" = ⟨.bool false, 10 * Second, none⟩) ∧
    (("ok", JSON.bool true) ∈ [("ok", JSON.bool true), ("ok", JSON.number "1")] ∧
      loadPermission sampleConfig
        (remoteAnswers 200 "\x7b\"ok\":true,\"ok\":1\x7d"
          (.ok (.object [("ok", .bool true), ("ok", .number "1")])))
        "203.0.113.5"
        = ⟨.nil, 0, some (.unmarshalType "number" "struct field SvcRes.ok of type bool")⟩) := by
  refine ⟨⟨List.mem_cons_self _ _, by decide⟩, ⟨List.mem_cons_self _ _, by decide⟩⟩

/-- C1, amended: a status-200 response whose body is a JSON object with the boolean field
`ok`, in which the fields matching `ok` up to letter case hold a boolean or `null` before it
and `null` after it, makes `loadPermission` return `(ok, 1 hour)` for `true` and
`(ok, 10 seconds)` for `false`, with no error; the ttl of a grant is strictly longer than that
of a denial. -/
theorem loadPermission_verdict (k : Config) (env : Env) (key binQ body : String)
    (res : HttpResponse) (pre post : List (String × JSON)) (ok : Bool)
    (hq : env.jsonMarshal ⟨k.Svcname, k.Svcsecret, key⟩ = .ok binQ)
    (hp : env.Post (k.Server ++ "/query") "application/json" binQ = .ok res)
    (hs : res.StatusCode = 200) (hb : res.Body = .ok body)
    (hj : env.jsonSyntax body = .ok (.object (pre ++ ("ok", .bool ok) :: post)))
    (hpre : ∀ kv ∈ pre, foldsToOk kv.1 = true → kv.2 = .null ∨ ∃ b, kv.2 = .bool b)
    (hpost : ∀ kv ∈ post, foldsToOk kv.1 = true → kv.2 = .null) :
    loadPermission k env key = ⟨.bool ok, if ok then 1 * Hour else 10 * Second, none⟩ ∧
      (10 * Second : Duration) < 1 * Hour := by
  refine ⟨?_, by decide⟩
  have hok : foldsToOk "ok" = true := by decide
  obtain ⟨r0, hr0⟩ := foldl_decodeField_no_error pre ⟨false⟩ hpre
  have hd : decodeSvcRes (.object (pre ++ ("ok", .bool ok) :: post)) ⟨false⟩ = .ok ⟨ok⟩ := by
    simp [decodeSvcRes, List.foldl_append, hr0, decodeField, hok,
      foldl_decodeField_null post _ hpost]
  unfold loadPermission
  simp only [hq, hp, hb, hs, jsonUnmarshal, hj, hd]
  cases ok <;> simp

/-- Witness of C1, amended: the answers `{"ok": true}`, `{"ok": false}` and
`{"status": "fine", "OK": null, "ok": true, "extra": false}`. -/
theorem loadPermission_verdict_witness :
    (loadPermission sampleConfig remoteGrants "203.0.113.5" = ⟨.bool true, 3600 * Second, none⟩ ∧
      (10 * Second : Duration) < 1 * Hour) ∧
    (loadPermission sampleConfig remoteDenies "203.0.113.5" = ⟨.bool false, 10 * Second, none⟩ ∧
      (10 * Second : Duration) < 1 * Hour) ∧
    (loadPermission sampleConfig
        (remoteAnswers 200 "\x7b\"status\":\"fine\",\"OK\":null,\"ok\":true,\"extra\":false\x7d"
          (.ok (.object [("status", .string "fine"), ("OK", .null), ("ok", .bool true),
            ("extra", .bool false)])))
        "203.0.113.5" = ⟨.bool true, 3600 * Second, none⟩ ∧
      (10 * Second : Duration) < 1 * Hour) :=
  ⟨loadPermission_verdict sampleConfig remoteGrants "203.0.113.5" "svc/203.0.113.5"
      "\x7b\"ok\":true\x7d" ⟨200, .ok "\x7b\"ok\":true\x7d"⟩ [] [] true rfl rfl rfl rfl rfl
      (by simp) (by simp),
   loadPermission_verdict sampleConfig remoteDenies "203.0.113.5" "svc/203.0.113.5"
      "\x7b\"ok\":false\x7d" ⟨200, .ok "\x7b\"ok\":false\x7d"⟩ [] [] false rfl rfl rfl rfl rfl
      (by simp) (by simp),
   loadPermission_verdict sampleConfig _ "203.0.113.5" "svc/203.0.113.5"
      "\x7b\"status\":\"fine\",\"OK\":null,\"ok\":true,\"extra\":false\x7d"
      ⟨200, .ok "\x7b\"status\":\"fine\",\"OK\":null,\"ok\":true,\"extra\":false\x7d"⟩
      [("status", .string "fine"), ("OK", .null)] [("extra", .bool false)] true rfl rfl rfl rfl
      rfl
      (by
        intro kv hkv hm
        simp only [List.mem_cons, List.mem_singleton, List.not_mem_nil, or_false] at hkv
        rcases hkv with rfl | rfl
        · exact absurd hm (by decide)
        · exact Or.inl rfl)
      (by
        intro kv hkv hm
        simp only [List.mem_singleton] at hkv
        subst hkv
        exact absurd hm (by decide))⟩

/-- C2: a response whose status code is not 200 makes `loadPermission` return the nil value,
the zero ttl and an error whose message is the raw response body. -/
theorem loadPermission_status_not_200 (k : Config) (env : Env) (key binQ body : String)
    (res : HttpResponse)
    (hq : env.jsonMarshal ⟨k.Svcname, k.Svcsecret, key⟩ = .ok binQ)
    (hp : env.Post (k.Server ++ "/query") "application/json" binQ = .ok res)
    (hb : res.Body = .ok body) (hs : res.StatusCode ≠ 200) :
    ∃ err, loadPermission k env key = ⟨.nil, 0, some err⟩ ∧ err.Error = body := by
  refine ⟨.errorsNew body, ?_, rfl⟩
  unfold loadPermission
  simp only [hq, hp, hb]
  simp [hs]

/-- Witness of C2: status 500 with body `internal error`. -/
theorem loadPermission_status_not_200_witness :
    ∃ err, loadPermission sampleConfig
        (remoteAnswers 500 "internal error" (.error (.foreign "invalid character"))) "203.0.113.5"
      = ⟨.nil, 0, some err⟩ ∧ err.Error = "internal error" :=
  loadPermission_status_not_200 sampleConfig _ "203.0.113.5" "svc/203.0.113.5" "internal error"
    ⟨500, .ok "internal error"⟩ rfl rfl rfl (by decide)

/-! ## Key derivation -/

theorem indexByte_eq_none {s : List Char} {c : Char} (h : c ∉ s) : indexByte s c = none := by
  induction s with
  | nil => rfl
  | cons x xs ih =>
    simp only [List.mem_cons, not_or] at h
    simp [indexByte, ih h.2, Ne.symm h.1]

theorem lastIndexByte_eq_none {s : List Char} {c : Char} (h : c ∉ s) :
    lastIndexByte s c = none := by
  induction s with
  | nil => rfl
  | cons x xs ih =>
    simp only [List.mem_cons, not_or] at h
    simp [lastIndexByte, ih h.2, Ne.symm h.1]

theorem lastIndexByte_append {p : List Char} {c : Char} (h : c ∉ p) (s : List Char) :
    lastIndexByte (s ++ c :: p) c = some s.length := by
  induction s with
  | nil => simp [lastIndexByte, lastIndexByte_eq_none h]
  | cons x xs ih => simp [lastIndexByte, ih]

theorem drop_length_succ (a : List Char) (c : Char) (b : List Char) :
    (a ++ c :: b).drop (a.length + 1) = b := by
  induction a with
  | nil => rfl
  | cons x xs ih => simp

/-- An address `host:port` without further colons or brackets splits into its two parts. -/
theorem SplitHostPort_join (host port : String)
    (hh : ∀ c ∈ host.data, isDelimiter c = false)
    (hp : ∀ c ∈ port.data, isDelimiter c = false) :
    SplitHostPort (host ++ ":" ++ port) = .ok (host, port) := by
  have hdata : (host ++ ":" ++ port).data = host.data ++ ':' :: port.data := by
    simp [String.data_append]
  have nmem : ∀ (c : Char), isDelimiter c = true → c ∉ host.data ∧ c ∉ port.data := by
    intro c hc
    constructor
    · intro hm; simp [hh c hm] at hc
    · intro hm; simp [hp c hm] at hc
  have hlast : lastIndexByte (host.data ++ ':' :: port.data) ':' = some host.data.length :=
    lastIndexByte_append (nmem ':' (by decide)).2 _
  have hhead : (host.data ++ ':' :: port.data).head? ≠ some '[' := by
    cases hd : host.data with
    | nil => simp
    | cons x xs =>
      have hx := (nmem '[' (by decide)).1
      rw [hd] at hx
      simp only [List.mem_cons, not_or] at hx
      simpa using Ne.symm hx.1
  have hcolon : indexByte host.data ':' = none := indexByte_eq_none (nmem ':' (by decide)).1
  have hopen : indexByte (host.data ++ ':' :: port.data) '[' = none := by
    apply indexByte_eq_none
    have := nmem '[' (by decide)
    simp [this.1, this.2]
  have hclose : indexByte (host.data ++ ':' :: port.data) ']' = none := by
    apply indexByte_eq_none
    have := nmem ']' (by decide)
    simp [this.1, this.2]
  unfold SplitHostPort
  simp only [hdata, hlast, hhead, if_false, List.take_left, hcolon, Option.isSome_none,
    List.drop_zero, hopen, hclose, Bool.false_eq_true]
  have hdrop : List.drop (host.length + 1) (host.data ++ ':' :: port.data) = port.data :=
    drop_length_succ _ _ _
  simp [hdrop]

/-- An address without a colon is rejected with `missing port in address`. -/
theorem SplitHostPort_no_colon (hostport : String) (h : ':' ∉ hostport.data) :
    SplitHostPort hostport = .error (.addrError missingPort hostport) := by
  unfold SplitHostPort
  simp [lastIndexByte_eq_none h]

theorem digitChar_not_delimiter (d : Nat) (hd : d < 10) : isDelimiter (Nat.digitChar d) = false := by
  interval_cases d <;> decide

theorem toDigitsCore_not_delimiter (fuel : Nat) : ∀ (n : Nat) (acc : List Char),
    (∀ c ∈ acc, isDelimiter c = false) →
    ∀ c ∈ Nat.toDigitsCore 10 fuel n acc, isDelimiter c = false := by
  induction fuel with
  | zero => intro n acc hacc c hc; exact hacc c (by simpa [Nat.toDigitsCore] using hc)
  | succ f ih =>
    intro n acc hacc c hc
    have hd : ∀ c ∈ Nat.digitChar (n % 10) :: acc, isDelimiter c = false := by
      intro c hc
      rcases List.mem_cons.1 hc with rfl | hc
      · exact digitChar_not_delimiter _ (Nat.mod_lt _ (by decide))
      · exact hacc c hc
    unfold Nat.toDigitsCore at hc
    by_cases h0 : n / 10 = 0
    · simp only [h0, if_true] at hc
      exact hd c hc
    · simp only [h0, if_false] at hc
      exact ih _ _ hd c hc

/-- The decimal rendering of a port number contains no colon and no bracket. -/
theorem port_not_delimiter (p : Nat) : ∀ c ∈ (toString p).data, isDelimiter c = false := by
  intro c hc
  have : (toString p).data = Nat.toDigitsCore 10 (p + 1) p [] := rfl
  rw [this] at hc
  exact toDigitsCore_not_delimiter _ _ _ (by simp) c hc

/-! ## The gate -/

theorem Header.values_setValues (h : Header) (key key' : String) (vs : List String) :
    (h.setValues key vs).values key' = if key' = key then vs else h.values key' := by
  induction h with
  | nil =>
    by_cases e : key = key'
    · simp [Header.setValues, Header.values, e]
    · simp [Header.setValues, Header.values, e, Ne.symm e]
  | cons kv rest ih =>
    obtain ⟨k0, v0⟩ := kv
    by_cases e0 : k0 = key
    · by_cases e : key = key'
      · simp [Header.setValues, Header.values, e0, e]
      · have e1 : ¬ k0 = key' := by rw [e0]; exact e
        simp [Header.setValues, Header.values, e0, e, Ne.symm e, e1]
    · by_cases e : key' = key
      · subst e
        simp [Header.setValues, Header.values, e0, ih]
      · simp [Header.setValues, Header.values, e0, ih, e]

/-- C3: when the origin splits into host and port and the verdict for the host is Denied,
`ServeHTTP` adds the header `Location: {server}/`, writes status 302 and the body
`knock required`, returns no error and does not call the next handler. -/
theorem ServeHTTP_denied (k : Knock) (env : Env) (now now' : Time) (w : ResponseWriter)
    (r : Request) (next : Handler) (host port : String)
    (hsplit : SplitHostPort r.RemoteAddr = .ok (host, port))
    (herr : (k.permissionCache.Get env now now' host).err = none)
    (hperm : (k.permissionCache.Get env now now' host).data = .bool false) :
    (ServeHTTP k env now now' w r next).w.calls
        = w.calls ++ [.WriteHeader 302, .Write "knock required"] ∧
      (∀ key, (ServeHTTP k env now now' w r next).w.header.values key
        = if key = "Location" then w.header.values "Location" ++ [k.Server ++ "/"]
          else w.header.values key) ∧
      (ServeHTTP k env now now' w r next).err = none ∧
      (ServeHTTP k env now now' w r next).panicked = false ∧
      (ServeHTTP k env now now' w r next).nextCalls = [] := by
  have hkey : CanonicalMIMEHeaderKey "location" = "Location" := by decide
  unfold ServeHTTP
  simp only [hsplit, herr, hperm]
  refine ⟨by simp, ?_, rfl, rfl, rfl⟩
  intro key
  simp only [Bool.not_false, if_true, Header.Add, hkey, Header.values_setValues]

/-- Witness of C3: the remote service answers `{"ok": false}` for `203.0.113.5`. -/
theorem ServeHTTP_denied_witness :
    (ServeHTTP (Provision sampleConfig) remoteDenies 0 0 freshWriter sampleRequest echoHandler).w
        = { header := [("Location", ["https://knock.example/"])],
            calls := [.WriteHeader 302, .Write "knock required"] } ∧
      (ServeHTTP (Provision sampleConfig) remoteDenies 0 0 freshWriter sampleRequest
        echoHandler).nextCalls = [] :=
  ⟨by decide,
   (ServeHTTP_denied (Provision sampleConfig) remoteDenies 0 0 freshWriter sampleRequest
      echoHandler "203.0.113.5" "54321" (by decide) (by decide) (by decide)).2.2.2.2⟩

/-- C4: when the origin splits into host and port and the verdict for the host is Authorized,
`ServeHTTP` calls the next handler exactly once, with the writer as it received it and the
same request, and returns the writer state and the error of that call. -/
theorem ServeHTTP_authorized (k : Knock) (env : Env) (now now' : Time) (w : ResponseWriter)
    (r : Request) (next : Handler) (host port : String)
    (hsplit : SplitHostPort r.RemoteAddr = .ok (host, port))
    (herr : (k.permissionCache.Get env now now' host).err = none)
    (hperm : (k.permissionCache.Get env now now' host).data = .bool true) :
    (ServeHTTP k env now now' w r next).nextCalls = [(w, r)] ∧
      (ServeHTTP k env now now' w r next).w = (next w r).1 ∧
      (ServeHTTP k env now now' w r next).err = (next w r).2 ∧
      (ServeHTTP k env now now' w r next).panicked = false := by
  unfold ServeHTTP
  simp only [hsplit, herr, hperm]
  simp

/-- Witness of C4: the remote service answers `{"ok": true}` for `203.0.113.5`. -/
theorem ServeHTTP_authorized_witness :
    (ServeHTTP (Provision sampleConfig) remoteGrants 0 0 freshWriter sampleRequest
        echoHandler).nextCalls = [(freshWriter, sampleRequest)] ∧
      (ServeHTTP (Provision sampleConfig) remoteGrants 0 0 freshWriter sampleRequest
        echoHandler).w = { header := [], calls := [.WriteHeader 200, .Write "/"] } :=
  ⟨(ServeHTTP_authorized (Provision sampleConfig) remoteGrants 0 0 freshWriter sampleRequest
      echoHandler "203.0.113.5" "54321" (by decide) (by decide) (by decide)).1,
   by decide⟩

/-- C5: when key derivation fails, or the cache lookup returns an error, `ServeHTTP` returns
that error, does not call the next handler and leaves the writer untouched; and an error
returned without a call of the next handler comes from one of these two places. -/
theorem ServeHTTP_errors (k : Knock) (env : Env) (now now' : Time) (w : ResponseWriter)
    (r : Request) (next : Handler) :
    (∀ err, SplitHostPort r.RemoteAddr = .error err →
      (ServeHTTP k env now now' w r next).err = some err ∧
      (ServeHTTP k env now now' w r next).nextCalls = [] ∧
      (ServeHTTP k env now now' w r next).w = w ∧
      (ServeHTTP k env now now' w r next).panicked = false) ∧
    (∀ host port err, SplitHostPort r.RemoteAddr = .ok (host, port) →
      (k.permissionCache.Get env now now' host).err = some err →
      (ServeHTTP k env now now' w r next).err = some err ∧
      (ServeHTTP k env now now' w r next).nextCalls = [] ∧
      (ServeHTTP k env now now' w r next).w = w ∧
      (ServeHTTP k env now now' w r next).panicked = false) ∧
    (∀ err, (ServeHTTP k env now now' w r next).err = some err →
      (ServeHTTP k env now now' w r next).nextCalls = [] →
      SplitHostPort r.RemoteAddr = .error err ∨
      ∃ host port, SplitHostPort r.RemoteAddr = .ok (host, port) ∧
        (k.permissionCache.Get env now now' host).err = some err) := by
  refine ⟨?_, ?_, ?_⟩
  · intro err h
    unfold ServeHTTP
    simp [h]
  · intro host port err h hg
    unfold ServeHTTP
    simp [h, hg]
  · intro err
    unfold ServeHTTP
    cases hsplit : SplitHostPort r.RemoteAddr with
    | error e => simp
    | ok hp =>
      obtain ⟨host, port⟩ := hp
      dsimp only
      cases hg : (k.permissionCache.Get env now now' host).err with
      | some e => simp [hg]
      | none =>
        dsimp only
        cases (k.permissionCache.Get env now now' host).data with
        | nil => simp
        | bool perm => cases perm <;> simp

/-- Witness of C5: an origin without a port, and a remote answer 500 `internal error`. -/
theorem ServeHTTP_errors_witness :
    (ServeHTTP (Provision sampleConfig) remoteGrants 0 0 freshWriter
        ⟨"203.0.113.5", "GET", "/"⟩ echoHandler).err
      = some (.addrError "missing port in address" "203.0.113.5") ∧
    (ServeHTTP (Provision sampleConfig)
        (remoteAnswers 500 "internal error" (.error (.foreign "invalid character"))) 0 0
        freshWriter sampleRequest echoHandler).err = some (.errorsNew "internal error") ∧
    (SplitHostPort sampleRequest.RemoteAddr
        = .error (.errorsNew "internal error") ∨
      ∃ host port, SplitHostPort sampleRequest.RemoteAddr = .ok (host, port) ∧
        ((Provision sampleConfig).permissionCache.Get
          (remoteAnswers 500 "internal error" (.error (.foreign "invalid character"))) 0 0
          host).err = some (.errorsNew "internal error")) :=
  ⟨((ServeHTTP_errors (Provision sampleConfig) remoteGrants 0 0 freshWriter
      ⟨"203.0.113.5", "GET", "/"⟩ echoHandler).1 _ (by decide)).1,
   ((ServeHTTP_errors (Provision sampleConfig)
      (remoteAnswers 500 "internal error" (.error (.foreign "invalid character"))) 0 0
      freshWriter sampleRequest echoHandler).2.1 "203.0.113.5" "54321" _ (by decide)
      (by decide)).1,
   (ServeHTTP_errors (Provision sampleConfig)
      (remoteAnswers 500 "internal error" (.error (.foreign "invalid character"))) 0 0
      freshWriter sampleRequest echoHandler).2.2 _ (by decide) (by decide)⟩

/-- C6: for a host without colon or bracket and any port number, the origin `host:port`
makes `ServeHTTP` look up exactly the key `host`; for an origin without a colon, key
derivation fails and `ServeHTTP` returns the error without a lookup, a load or a write. -/
theorem ServeHTTP_cache_key (k : Knock) (env : Env) (now now' : Time) (w : ResponseWriter)
    (next : Handler) :
    (∀ (host : String) (port : Nat) (method uri : String),
      (∀ c ∈ host.data, isDelimiter c = false) →
      SplitHostPort (host ++ ":" ++ toString port) = .ok (host, toString port) ∧
      (ServeHTTP k env now now' w ⟨host ++ ":" ++ toString port, method, uri⟩ next).lookups
        = [host] ∧
      (ServeHTTP k env now now' w ⟨host ++ ":" ++ toString port, method, uri⟩ next).cache
        = (k.permissionCache.Get env now now' host).cache) ∧
    (∀ r : Request, ':' ∉ r.RemoteAddr.data →
      ∃ err, SplitHostPort r.RemoteAddr = .error err ∧
        (ServeHTTP k env now now' w r next).err = some err ∧
        (ServeHTTP k env now now' w r next).lookups = [] ∧
        (ServeHTTP k env now now' w r next).loaderCalls = [] ∧
        (ServeHTTP k env now now' w r next).cache = k.permissionCache) := by
  constructor
  · intro host port method uri hh
    have hsplit := SplitHostPort_join host (toString port) hh (port_not_delimiter port)
    refine ⟨hsplit, ?_⟩
    unfold ServeHTTP
    simp only [hsplit]
    cases (k.permissionCache.Get env now now' host).err with
    | some e => simp
    | none =>
      dsimp only
      cases (k.permissionCache.Get env now now' host).data with
      | nil => simp
      | bool perm => cases perm <;> simp
  · intro r hr
    have hsplit := SplitHostPort_no_colon r.RemoteAddr hr
    refine ⟨_, hsplit, ?_⟩
    unfold ServeHTTP
    simp [hsplit]

/-- Witness of C6: the origin `203.0.113.5:54321` yields the key `203.0.113.5`, and the
origin `203.0.113.5` yields an error. -/
theorem ServeHTTP_cache_key_witness :
    (SplitHostPort "203.0.113.5:54321" = .ok ("203.0.113.5", "54321") ∧
      (ServeHTTP (Provision sampleConfig) remoteGrants 0 0 freshWriter sampleRequest
        echoHandler).lookups = ["203.0.113.5"] ∧
      (ServeHTTP (Provision sampleConfig) remoteGrants 0 0 freshWriter sampleRequest
        echoHandler).cache
        = ((Provision sampleConfig).permissionCache.Get remoteGrants 0 0 "203.0.113.5").cache) ∧
    ∃ err, SplitHostPort "203.0.113.5" = .error err ∧
      (ServeHTTP (Provision sampleConfig) remoteGrants 0 0 freshWriter
        ⟨"203.0.113.5", "GET", "/"⟩ echoHandler).err = some err ∧
      (ServeHTTP (Provision sampleConfig) remoteGrants 0 0 freshWriter
        ⟨"203.0.113.5", "GET", "/"⟩ echoHandler).lookups = [] ∧
      (ServeHTTP (Provision sampleConfig) remoteGrants 0 0 freshWriter
        ⟨"203.0.113.5", "GET", "/"⟩ echoHandler).loaderCalls = [] ∧
      (ServeHTTP (Provision sampleConfig) remoteGrants 0 0 freshWriter
        ⟨"203.0.113.5", "GET", "/"⟩ echoHandler).cache = (Provision sampleConfig).permissionCache :=
  ⟨(ServeHTTP_cache_key (Provision sampleConfig) remoteGrants 0 0 freshWriter echoHandler).1
      "203.0.113.5" 54321 "GET" "/" (by decide),
   (ServeHTTP_cache_key (Provision sampleConfig) remoteGrants 0 0 freshWriter echoHandler).2
      ⟨"203.0.113.5", "GET", "/"⟩ (by decide)⟩

/-! ## The cache -/

theorem Items.find_set_self (items : Items) (key : String) (it : Item) :
    (items.set key it).find key = some it := by
  induction items with
  | nil => simp [Items.set, Items.find]
  | cons kv rest ih =>
    obtain ⟨k0, v0⟩ := kv
    by_cases e : k0 = key
    · simp [Items.set, Items.find, e]
    · simp [Items.set, Items.find, e, ih]

theorem Items.find_set_other (items : Items) (key key' : String) (it : Item) (h : key' ≠ key) :
    (items.set key it).find key' = items.find key' := by
  induction items with
  | nil => simp [Items.set, Items.find, Ne.symm h]
  | cons kv rest ih =>
    obtain ⟨k0, v0⟩ := kv
    by_cases e : k0 = key
    · have e1 : ¬ k0 = key' := by rw [e]; exact Ne.symm h
      simp [Items.set, Items.find, e, e1, Ne.symm h]
    · simp [Items.set, Items.find, e, ih]

theorem Cache.getItem_miss (cache : Cache) (now : Time) (key : String)
    (h : cache.live now key = false) : cache.getItem now key = (cache, none) := by
  unfold Cache.live at h
  unfold Cache.getItem
  cases hf : cache.items.find key with
  | none => rfl
  | some item =>
    rw [hf] at h
    have : item.expired now = true := by simpa using h
    simp [this]

theorem Cache.getItem_hit (cache : Cache) (now : Time) (key : String) (it : Item)
    (hext : cache.skipTTLExtension = false) (hf : cache.items.find key = some it)
    (hpos : 0 < it.ttl) (hlive : now ≤ it.expireAt) :
    cache.getItem now key =
      ({ cache with items := cache.items.set key { it with expireAt := now + it.ttl } },
        some { it with expireAt := now + it.ttl }) := by
  have hne : it.ttl ≠ 0 := ne_of_gt hpos
  have hexp : it.expired now = false := by
    simp [Item.expired, not_le.2 hpos, not_lt.2 hlive]
  unfold Cache.getItem
  simp [hf, hexp, hext, hne, Item.touch, hpos]

theorem Cache.live_of_expired (cache : Cache) (now : Time) (key : String) (it : Item)
    (hf : cache.items.find key = some it) (hpos : 0 < it.ttl) (hexp : it.expireAt < now) :
    cache.live now key = false := by
  simp [Cache.live, hf, Item.expired, not_le.2 hpos, hexp]

theorem Cache.live_later (cache : Cache) (now t : Time) (key : String)
    (h : cache.live now key = false) (ht : now ≤ t) : cache.live t key = false := by
  unfold Cache.live at h ⊢
  cases hf : cache.items.find key with
  | none => rfl
  | some item =>
    rw [hf] at h
    simp only [Item.expired, Bool.not_eq_false'] at h ⊢
    by_cases hz : item.ttl ≤ 0
    · simp [hz] at h
    · simp only [hz, if_false, decide_eq_true_eq] at h ⊢
      exact lt_of_lt_of_le h ht

theorem Cache.Get_miss (cache : Cache) (env : Env) (now now' : Time) (key : String)
    (f : LoaderFunction) (hopen : cache.isShutDown = false)
    (hloader : cache.loaderFunction = some f) (hmiss : cache.live now key = false) :
    cache.Get env now now' key = cache.invokeLoader env now' key f := by
  unfold Cache.Get Cache.GetByLoaderWithTtl
  simp [hopen, Cache.getItem_miss cache now key hmiss, hloader]

theorem Cache.getItem_options (cache : Cache) (now : Time) (key : String) :
    (cache.getItem now key).1.isShutDown = cache.isShutDown ∧
      (cache.getItem now key).1.skipTTLExtension = cache.skipTTLExtension ∧
      (cache.getItem now key).1.loaderFunction = cache.loaderFunction ∧
      (cache.getItem now key).1.ttl = cache.ttl := by
  unfold Cache.getItem
  split
  · exact ⟨rfl, rfl, rfl, rfl⟩
  · split
    · exact ⟨rfl, rfl, rfl, rfl⟩
    · split <;> exact ⟨rfl, rfl, rfl, rfl⟩

theorem Cache.getItem_live (cache : Cache) (now : Time) (key : String)
    (hlive : cache.live now key = true) :
    ∃ c it, cache.getItem now key = (c, some it) := by
  unfold Cache.live at hlive
  unfold Cache.getItem
  cases hf : cache.items.find key with
  | none => simp [hf] at hlive
  | some item =>
    rw [hf] at hlive
    have hexp : item.expired now = false := by simpa using hlive
    simp only [hexp, Bool.false_eq_true, if_false]
    split
    · exact ⟨_, _, rfl⟩
    · exact ⟨_, _, rfl⟩

theorem Cache.Get_loaderCalls_live (cache : Cache) (env : Env) (now now' : Time) (key : String)
    (hlive : cache.live now key = true) : (cache.Get env now now' key).loaderCalls = [] := by
  obtain ⟨c, it, hget⟩ := Cache.getItem_live cache now key hlive
  unfold Cache.Get Cache.GetByLoaderWithTtl
  by_cases hs : cache.isShutDown = true
  · simp [hs]
  · simp [hs, hget]

theorem Cache.invokeLoader_loaderCalls (cache : Cache) (env : Env) (now' : Time) (key : String)
    (f : LoaderFunction) : (cache.invokeLoader env now' key f).loaderCalls = [key] := by
  unfold Cache.invokeLoader
  dsimp only
  cases (f env key).err with
  | some e => rfl
  | none =>
    dsimp only
    cases hset : cache.SetWithTTL now' key (f env key).data (f env key).ttl with
    | mk c e => cases e <;> rfl

theorem Cache.SetWithTTL_miss (cache : Cache) (now : Time) (key : String) (data : GoValue)
    (ttl : Duration) (hopen : cache.isShutDown = false) (hmiss : cache.live now key = false)
    (hpos : 0 < ttl) :
    cache.SetWithTTL now key data ttl =
      ({ cache with items := cache.items.set key ⟨key, data, ttl, now + ttl⟩ }, none) := by
  have hne : ttl ≠ 0 := ne_of_gt hpos
  unfold Cache.SetWithTTL
  simp [hopen, Cache.getItem_miss cache now key hmiss, newItem, Item.touch, hpos, hne]

/-- C7: when the loader fails during `Get(key)`, the cache is left as it was, the caller
receives the loader's error, and the next `Get(key)` calls the loader again. -/
theorem Get_failed_load_not_cached (cache : Cache) (k : Config) (env : Env) (now now' : Time)
    (key : String) (err : GoError)
    (hloader : cache.loaderFunction = some (loadPermission k))
    (hcalled : (cache.Get env now now' key).loaderCalls ≠ [])
    (hfail : (loadPermission k env key).err = some err) :
    (cache.Get env now now' key).cache = cache ∧
      (cache.Get env now now' key).cache.items = cache.items ∧
      (cache.Get env now now' key).err = some err ∧
      (cache.Get env now now' key).loaderCalls = [key] ∧
      ∀ (env2 : Env) (t t' : Time), now ≤ t →
        ((cache.Get env now now' key).cache.Get env2 t t' key).loaderCalls = [key] := by
  have hopen : cache.isShutDown = false := by
    by_contra hs
    apply hcalled
    unfold Cache.Get Cache.GetByLoaderWithTtl
    simp [hs]
  have hmiss : cache.live now key = false := by
    by_contra hl
    exact hcalled (Cache.Get_loaderCalls_live cache env now now' key (by simpa using hl))
  have hget : cache.Get env now now' key
      = ⟨cache, (loadPermission k env key).data, (loadPermission k env key).ttl, some err,
          [key]⟩ := by
    rw [Cache.Get_miss cache env now now' key _ hopen hloader hmiss]
    unfold Cache.invokeLoader
    simp [hfail]
  rw [hget]
  refine ⟨rfl, rfl, rfl, rfl, ?_⟩
  intro env2 t t' ht
  rw [Cache.Get_miss cache env2 t t' key _ hopen hloader (Cache.live_later cache now t key hmiss ht)]
  exact Cache.invokeLoader_loaderCalls _ _ _ _ _

/-- Witness of C7: the remote service answers 500 to the first request from `203.0.113.5`. -/
theorem Get_failed_load_not_cached_witness :
    ((Provision sampleConfig).permissionCache.Get
        (remoteAnswers 500 "internal error" (.error (.foreign "invalid character"))) 0 0
        "203.0.113.5").cache.items = [] ∧
      ((Provision sampleConfig).permissionCache.Get
        (remoteAnswers 500 "internal error" (.error (.foreign "invalid character"))) 0 0
        "203.0.113.5").err = some (.errorsNew "internal error") :=
  have h := Get_failed_load_not_cached (Provision sampleConfig).permissionCache sampleConfig
    (remoteAnswers 500 "internal error" (.error (.foreign "invalid character"))) 0 0
    "203.0.113.5" (.errorsNew "internal error") rfl (by decide) (by decide)
  ⟨h.2.1, h.2.2.1⟩

/-- Counterexample to C8: a denial loaded at time 0 and read at 5 s is still served from the
cache at 12 s, although 12 s is later than 0 + 10 s and the remote service would now grant. -/
theorem denied_entry_outlives_ten_seconds :
    ((Provision sampleConfig).permissionCache.Get remoteDenies 0 0 "203.0.113.5").loaderCalls
        = ["203.0.113.5"] ∧
      ((Provision sampleConfig).permissionCache.Get remoteDenies 0 0 "203.0.113.5").data
        = .bool false ∧
      ((Provision sampleConfig).permissionCache.Get remoteDenies 0 0 "203.0.113.5").cache.items
        = [("203.0.113.5", ⟨"203.0.113.5", .bool false, 10 * Second, 0 + 10 * Second⟩)] ∧
      ((((Provision sampleConfig).permissionCache.Get remoteDenies 0 0 "203.0.113.5").cache.Get
          remoteGrants (5 * Second) (5 * Second) "203.0.113.5").cache.Get
          remoteGrants (12 * Second) (12 * Second) "203.0.113.5").loaderCalls = [] ∧
      ((((Provision sampleConfig).permissionCache.Get remoteDenies 0 0 "203.0.113.5").cache.Get
          remoteGrants (5 * Second) (5 * Second) "203.0.113.5").cache.Get
          remoteGrants (12 * Second) (12 * Second) "203.0.113.5").data = .bool false ∧
      (0 + 10 * Second : Time) ≤ 12 * Second := by
  decide

/-- C8, amended: a successful load is stored with expiry `now' + ttl`, the ttl being the one
the loader returned; a `Get` no later than the expiry is served from the cache without a load
and moves the expiry to the time of that `Get` plus ttl; a `Get` later than the expiry calls
the loader; the options of the cache stay as they are. -/
theorem entry_expiry_slides (cache : Cache) (k : Config) (env : Env) (now now' : Time)
    (key : String) (hopen : cache.isShutDown = false) (hext : cache.skipTTLExtension = false)
    (hloader : cache.loaderFunction = some (loadPermission k)) :
    (cache.live now key = false → now ≤ now' → (loadPermission k env key).err = none →
      (cache.Get env now now' key).loaderCalls = [key] ∧
      (cache.Get env now now' key).data = (loadPermission k env key).data ∧
      (cache.Get env now now' key).err = none ∧
      (cache.Get env now now' key).cache.items.find key
        = some ⟨key, (loadPermission k env key).data, (loadPermission k env key).ttl,
            now' + (loadPermission k env key).ttl⟩) ∧
    (∀ it, cache.items.find key = some it → 0 < it.ttl → now ≤ it.expireAt →
      (cache.Get env now now' key).loaderCalls = [] ∧
      (cache.Get env now now' key).data = it.data ∧
      (cache.Get env now now' key).err = none ∧
      (cache.Get env now now' key).cache.items.find key
        = some { it with expireAt := now + it.ttl }) ∧
    (∀ it, cache.items.find key = some it → 0 < it.ttl → it.expireAt < now →
      (cache.Get env now now' key).loaderCalls = [key]) ∧
    ((cache.Get env now now' key).cache.isShutDown = false ∧
      (cache.Get env now now' key).cache.skipTTLExtension = false ∧
      (cache.Get env now now' key).cache.loaderFunction = some (loadPermission k)) := by
  refine ⟨?_, ?_, ?_, ?_⟩
  · intro hmiss hclock hok
    have hpos := loadPermission_ttl_pos k env key hok
    have hset := Cache.SetWithTTL_miss cache now' key (loadPermission k env key).data
      (loadPermission k env key).ttl hopen (Cache.live_later cache now now' key hmiss hclock) hpos
    rw [Cache.Get_miss cache env now now' key _ hopen hloader hmiss]
    unfold Cache.invokeLoader
    simp [hok, hset, Items.find_set_self]
  · intro it hf hpos hlive
    unfold Cache.Get Cache.GetByLoaderWithTtl
    simp [hopen, Cache.getItem_hit cache now key it hext hf hpos hlive, Items.find_set_self]
  · intro it hf hpos hexp
    rw [Cache.Get_miss cache env now now' key _ hopen hloader
      (Cache.live_of_expired cache now key it hf hpos hexp)]
    exact Cache.invokeLoader_loaderCalls _ _ _ _ _
  · by_cases hl : cache.live now key = true
    · obtain ⟨c, it, hget⟩ := Cache.getItem_live cache now key hl
      have ho := Cache.getItem_options cache now key
      rw [hget] at ho
      unfold Cache.Get Cache.GetByLoaderWithTtl
      simp only [hopen, Bool.false_eq_true, if_false, hget]
      exact ⟨ho.1.trans hopen, ho.2.1.trans hext, ho.2.2.1.trans hloader⟩
    · have hmiss : cache.live now key = false := by simpa using hl
      rw [Cache.Get_miss cache env now now' key _ hopen hloader hmiss]
      unfold Cache.invokeLoader
      dsimp only
      cases (loadPermission k env key).err with
      | some e => exact ⟨hopen, hext, hloader⟩
      | none =>
        dsimp only
        have ho := Cache.getItem_options cache now' key
        unfold Cache.SetWithTTL
        simp only [hopen, Bool.false_eq_true, if_false]
        exact ⟨ho.1.trans hopen, ho.2.1.trans hext, ho.2.2.1.trans hloader⟩

/-- Witness of C8, amended: a denial loaded at 0 expires at 10 s; read at 5 s it is served
from the cache and expires at 15 s; an entry that expired at 10 s is reloaded at 11 s. -/
theorem entry_expiry_slides_witness :
    ((Provision sampleConfig).permissionCache.Get remoteDenies 0 0 "203.0.113.5").cache.items.find
        "203.0.113.5" = some ⟨"203.0.113.5", .bool false, 10 * Second, 10 * Second⟩ ∧
      (((Provision sampleConfig).permissionCache.Get remoteDenies 0 0 "203.0.113.5").cache.Get
        remoteGrants (5 * Second) (5 * Second) "203.0.113.5").cache.items.find "203.0.113.5"
        = some ⟨"203.0.113.5", .bool false, 10 * Second, 15 * Second⟩ ∧
      (((Provision sampleConfig).permissionCache.Get remoteDenies 0 0 "203.0.113.5").cache.Get
        remoteGrants (11 * Second) (11 * Second) "203.0.113.5").loaderCalls = ["203.0.113.5"] :=
  ⟨((entry_expiry_slides (Provision sampleConfig).permissionCache sampleConfig remoteDenies 0 0
      "203.0.113.5" rfl rfl rfl).1 (by decide) (by decide) (by decide)).2.2.2,
   ((entry_expiry_slides
      ((Provision sampleConfig).permissionCache.Get remoteDenies 0 0 "203.0.113.5").cache
      sampleConfig remoteGrants (5 * Second) (5 * Second) "203.0.113.5" rfl rfl rfl).2.1
      ⟨"203.0.113.5", .bool false, 10 * Second, 10 * Second⟩ (by decide) (by decide)
      (by decide)).2.2.2,
   (entry_expiry_slides
      ((Provision sampleConfig).permissionCache.Get remoteDenies 0 0 "203.0.113.5").cache
      sampleConfig remoteGrants (11 * Second) (11 * Second) "203.0.113.5" rfl rfl rfl).2.2.1
      ⟨"203.0.113.5", .bool false, 10 * Second, 10 * Second⟩ (by decide) (by decide)
      (by decide)⟩

theorem foldl_decodeField_no_match (fields : List (String × JSON))
    (acc : SvcRes × Option GoError) (hno : ∀ kv ∈ fields, foldsToOk kv.1 = false) :
    fields.foldl decodeField acc = acc := by
  induction fields generalizing acc with
  | nil => rfl
  | cons kv rest ih =>
    have h1 : decodeField acc kv = acc := by
      simp [decodeField, hno kv (List.mem_cons_self _ _)]
    rw [List.foldl_cons, h1]
    exact ih acc (fun kv hkv => hno kv (List.mem_cons_of_mem _ hkv))

/-- Counterexample to C10: the body `{"OK": true}` has no field named `ok`, and the loader
returns the verdict Authorized with the ttl of one hour. -/
theorem upper_case_ok_is_a_verdict :
    (∀ kv ∈ [("OK", JSON.bool true)], kv.1 ≠ "ok") ∧
      loadPermission sampleConfig
        (remoteAnswers 200 "\x7b\"OK\":true\x7d" (.ok (.object [("OK", .bool true)])))
        "203.0.113.5" = ⟨.bool true, 1 * Hour, none⟩ := by
  decide

/-- C10, amended: a status-200 response whose body is a JSON object without a field whose
name matches `ok` up to letter case makes `loadPermission` return `(false, 10 seconds)` with
no error; on a cache miss `ServeHTTP` then stores the denial for ten seconds and answers with
the redirect, without an error and without calling the next handler. -/
theorem no_verdict_is_denial (k : Knock) (env : Env) (now now' : Time) (w : ResponseWriter)
    (r : Request) (next : Handler) (key port binQ body : String) (res : HttpResponse)
    (fields : List (String × JSON))
    (hq : env.jsonMarshal ⟨k.Svcname, k.Svcsecret, key⟩ = .ok binQ)
    (hp : env.Post (k.Server ++ "/query") "application/json" binQ = .ok res)
    (hs : res.StatusCode = 200) (hb : res.Body = .ok body)
    (hj : env.jsonSyntax body = .ok (.object fields))
    (hno : ∀ kv ∈ fields, foldsToOk kv.1 = false)
    (hsplit : SplitHostPort r.RemoteAddr = .ok (key, port))
    (hloader : k.permissionCache.loaderFunction = some (loadPermission k.toConfig))
    (hopen : k.permissionCache.isShutDown = false)
    (hmiss : k.permissionCache.live now key = false) (hclock : now ≤ now') :
    loadPermission k.toConfig env key = ⟨.bool false, 10 * Second, none⟩ ∧
      (ServeHTTP k env now now' w r next).err = none ∧
      (ServeHTTP k env now now' w r next).nextCalls = [] ∧
      (ServeHTTP k env now now' w r next).w.calls
        = w.calls ++ [.WriteHeader 302, .Write "knock required"] ∧
      (ServeHTTP k env now now' w r next).cache.items.find key
        = some ⟨key, .bool false, 10 * Second, now' + 10 * Second⟩ := by
  have hload : loadPermission k.toConfig env key = ⟨.bool false, 10 * Second, none⟩ := by
    have hd : decodeSvcRes (.object fields) ⟨false⟩ = .ok ⟨false⟩ := by
      simp [decodeSvcRes, foldl_decodeField_no_match fields _ hno]
    unfold loadPermission
    simp only [hq, hp, hb, hs, jsonUnmarshal, hj, hd]
    simp
  have hset := Cache.SetWithTTL_miss k.permissionCache now' key (.bool false) (10 * Second) hopen
    (Cache.live_later _ now now' key hmiss hclock) (by decide)
  have hget : k.permissionCache.Get env now now' key
      = ⟨{ k.permissionCache with
            items := k.permissionCache.items.set key
              ⟨key, .bool false, 10 * Second, now' + 10 * Second⟩ },
          .bool false, 10 * Second, none, [key]⟩ := by
    rw [Cache.Get_miss _ env now now' key _ hopen hloader hmiss]
    unfold Cache.invokeLoader
    simp [hload, hset]
  refine ⟨hload, ?_⟩
  unfold ServeHTTP
  simp [hsplit, hget, Items.find_set_self]

/-- Witness of C10, amended: the remote service answers `{}` to the first request from
`203.0.113.5`. -/
theorem no_verdict_is_denial_witness :
    loadPermission sampleConfig (remoteAnswers 200 "\x7b\x7d" (.ok (.object []))) "203.0.113.5"
        = ⟨.bool false, 10 * Second, none⟩ ∧
      (ServeHTTP (Provision sampleConfig) (remoteAnswers 200 "\x7b\x7d" (.ok (.object []))) 0 0
        freshWriter sampleRequest echoHandler).w.calls
        = [.WriteHeader 302, .Write "knock required"] :=
  have h := no_verdict_is_denial (Provision sampleConfig)
    (remoteAnswers 200 "\x7b\x7d" (.ok (.object []))) 0 0 freshWriter sampleRequest echoHandler
    "203.0.113.5" "54321" "svc/203.0.113.5" "\x7b\x7d" ⟨200, .ok "\x7b\x7d"⟩ [] rfl rfl rfl rfl
    rfl (by simp) (by decide) rfl rfl (by decide) (by decide)
  ⟨h.1, h.2.2.2.1⟩

/-! ## The type assertion never panics -/

theorem Cache.getItem_holdsVerdicts (cache : Cache) (now : Time) (key : String)
    (h : cache.holdsVerdicts) :
    (cache.getItem now key).1.holdsVerdicts ∧
      ∀ it, (cache.getItem now key).2 = some it → ∃ b, it.data = .bool b := by
  unfold Cache.getItem
  cases hf : cache.items.find key with
  | none => exact ⟨h, by simp⟩
  | some item =>
    obtain ⟨b, hb⟩ := h key item hf
    dsimp only
    split
    · exact ⟨h, by simp⟩
    · split
      · exact ⟨h, by intro it hit; cases hit; exact ⟨b, hb⟩⟩
      · have hdata : ((if (item.ttl == 0) = true then { item with ttl := cache.ttl }
            else item).touch now).data = .bool b := by
          unfold Item.touch
          split <;> split <;> simp [hb]
        refine ⟨?_, by intro it hit; cases hit; exact ⟨b, hdata⟩⟩
        intro key' it' hf'
        by_cases e : key' = key
        · subst e
          rw [Items.find_set_self] at hf'
          cases hf'
          exact ⟨b, hdata⟩
        · rw [Items.find_set_other _ _ _ _ e] at hf'
          exact h key' it' hf'

theorem Cache.SetWithTTL_holdsVerdicts (cache : Cache) (now : Time) (key : String) (b : Bool)
    (ttl : Duration) (h : cache.holdsVerdicts) :
    (cache.SetWithTTL now key (.bool b) ttl).1.holdsVerdicts := by
  unfold Cache.SetWithTTL
  split
  · exact h
  · have hg := (Cache.getItem_holdsVerdicts cache now key h).1
    dsimp only
    intro key' it' hf'
    by_cases e : key' = key
    · subst e
      rw [Items.find_set_self] at hf'
      cases hf'
      refine ⟨b, ?_⟩
      unfold Item.touch newItem Item.touch
      cases (cache.getItem now key').2 <;> dsimp only <;> split <;> split <;> (try split) <;> rfl
    · rw [Items.find_set_other _ _ _ _ e] at hf'
      exact hg key' it' hf'

/-- A cache that holds verdicts and loads with `loadPermission` keeps holding verdicts, and a
`Get` without error returns a `bool`. -/
theorem Cache.Get_holdsVerdicts (cache : Cache) (k : Config) (env : Env) (now now' : Time)
    (key : String) (h : cache.holdsVerdicts)
    (hloader : cache.loaderFunction = some (loadPermission k)) :
    (cache.Get env now now' key).cache.holdsVerdicts ∧
      ((cache.Get env now now' key).err = none → ∃ b, (cache.Get env now now' key).data = .bool b) := by
  have hg := Cache.getItem_holdsVerdicts cache now key h
  have ho := Cache.getItem_options cache now key
  unfold Cache.Get Cache.GetByLoaderWithTtl
  split
  · exact ⟨h, by simp⟩
  · cases hget : cache.getItem now key with
    | mk c found =>
      rw [hget] at hg ho
      cases found with
      | some it => exact ⟨hg.1, fun _ => hg.2 it rfl⟩
      | none =>
        have hl : c.loaderFunction = some (loadPermission k) := ho.2.2.1.trans hloader
        simp only [hl]
        unfold Cache.invokeLoader
        dsimp only
        cases herr : (loadPermission k env key).err with
        | some e => exact ⟨hg.1, by simp⟩
        | none =>
          dsimp only
          have hdata : ∃ b, (loadPermission k env key).data = .bool b := by
            rcases loadPermission_success k env key herr with h1 | h1 <;> rw [h1] <;> simp
          obtain ⟨b, hb⟩ := hdata
          rw [hb]
          have hset := Cache.SetWithTTL_holdsVerdicts c now' key b (loadPermission k env key).ttl
            hg.1
          cases hs : c.SetWithTTL now' key (.bool b) (loadPermission k env key).ttl with
          | mk c2 e =>
            rw [hs] at hset
            cases e with
            | some e => exact ⟨hset, by simp⟩
            | none => exact ⟨hset, fun _ => ⟨b, rfl⟩⟩

/-- The cache that `Provision` builds holds verdicts. -/
theorem Provision_holdsVerdicts (k : Config) : (Provision k).permissionCache.holdsVerdicts := by
  intro key it hf
  simp [Provision, NewCache, Cache.SetLoaderFunction, Items.find] at hf

/-- On a cache that holds verdicts and loads with `loadPermission`, `ServeHTTP` never panics
in the type assertion and leaves such a cache behind. -/
theorem ServeHTTP_no_panic (k : Knock) (env : Env) (now now' : Time) (w : ResponseWriter)
    (r : Request) (next : Handler) (h : k.permissionCache.holdsVerdicts)
    (hloader : k.permissionCache.loaderFunction = some (loadPermission k.toConfig)) :
    (ServeHTTP k env now now' w r next).panicked = false ∧
      (ServeHTTP k env now now' w r next).cache.holdsVerdicts := by
  unfold ServeHTTP
  cases SplitHostPort r.RemoteAddr with
  | error e => exact ⟨rfl, h⟩
  | ok hp =>
    obtain ⟨host, port⟩ := hp
    have hg := Cache.Get_holdsVerdicts k.permissionCache k.toConfig env now now' host h hloader
    dsimp only
    cases herr : (k.permissionCache.Get env now now' host).err with
    | some e => exact ⟨rfl, hg.1⟩
    | none =>
      obtain ⟨b, hb⟩ := hg.2 herr
      simp only [hb]
      cases b <;> exact ⟨rfl, hg.1⟩

/-- With `SkipTTLExtensionOnHit(true)` a lookup leaves the cache as it is. -/
theorem Cache.getItem_skipTTLExtension (cache : Cache) (now : Time) (key : String)
    (hskip : cache.skipTTLExtension = true) : (cache.getItem now key).1 = cache := by
  unfold Cache.getItem
  split
  · rfl
  · split
    · rfl
    · simp [hskip]

end CaddyKnock
